import Mathlib

/-!
Verification of the JobSearch agent pipeline (`agent_graph.py`,
`deduplicate_jobs.py`) via a shallow embedding in Lean.

Python dictionaries parsed from JSON are modelled by the `Json` inductive;
machine-level details that no claim touches (floating-point rendering,
Unicode-aware lowercasing beyond ASCII) are modelled by total executable
approximations noted at their definitions.
-/

namespace JobAgent

/-- JSON values as produced by `json.loads`.  Numbers are kept exactly as
mantissa and power-of-ten exponent (`num m e` denotes `m * 10 ^ e`); an
integer literal parses with exponent 0. -/
inductive Json where
  | null : Json
  | bool : Bool → Json
  | num : Int → Int → Json
  | str : String → Json
  | arr : List Json → Json
  | obj : List (String × Json) → Json

/-- Whitespace accepted between JSON tokens (space, tab, newline, return). -/
def isJsonWs (c : Char) : Bool :=
  c = ' ' || c = '\t' || c = '\n' || c = '\r'

/-- Drop leading JSON whitespace. -/
def skipWs (cs : List Char) : List Char :=
  cs.dropWhile isJsonWs

/-- Digit run at the front of the input: value, number of digits, rest. -/
def takeDigits : List Char → Nat × Nat × List Char
  | c :: cs =>
    if c.isDigit then
      let (v, n, rest) := takeDigits cs
      ((c.toNat - 48) * 10 ^ n + v, n + 1, rest)
    else (0, 0, c :: cs)
  | [] => (0, 0, [])

/-- One escaped character after a backslash inside a JSON string. -/
def escChar (c : Char) : Option Char :=
  if c = '"' then some '"'
  else if c = '\\' then some '\\'
  else if c = '/' then some '/'
  else if c = 'b' then some (Char.ofNat 8)
  else if c = 'f' then some (Char.ofNat 12)
  else if c = 'n' then some '\n'
  else if c = 'r' then some '\r'
  else if c = 't' then some '\t'
  else none

/-- Hexadecimal digit value. -/
def hexVal (c : Char) : Option Nat :=
  if c.isDigit then some (c.toNat - 48)
  else if 'a' ≤ c ∧ c ≤ 'f' then some (c.toNat - 87)
  else if 'A' ≤ c ∧ c ≤ 'F' then some (c.toNat - 55)
  else none

/-- Body of a JSON string after the opening quote: contents plus the rest of
the input after the closing quote.  Raw control characters are rejected, as
in Python strict mode; surrogate-pair recombination is not modelled. -/
def parseStringBody : List Char → List Char → Option (String × List Char)
  | acc, '"' :: cs => some (String.mk acc.reverse, cs)
  | acc, '\\' :: 'u' :: a :: b :: c :: d :: cs =>
    (match hexVal a, hexVal b, hexVal c, hexVal d with
     | some x, some y, some z, some w =>
       parseStringBody (Char.ofNat (((x * 16 + y) * 16 + z) * 16 + w) :: acc) cs
     | _, _, _, _ => none)
  | acc, '\\' :: c :: cs =>
    (match escChar c with
     | some e => parseStringBody (e :: acc) cs
     | none => none)
  | acc, c :: cs => if c.toNat < 32 then none else parseStringBody (c :: acc) cs
  | _, [] => none

/-- Exponent suffix and assembly of a numeric literal.  `ip` is the integer
part, `fv`/`fn` the fraction digits value and count. -/
def parseExp (neg : Bool) (ip fv fn : Nat) (cs : List Char) : Option (Json × List Char) :=
  let mantNat : Nat := ip * 10 ^ fn + fv
  let mant : Int := if neg then -(mantNat : Int) else (mantNat : Int)
  match cs with
  | c :: cs5 =>
    if c = 'e' ∨ c = 'E' then
      let (esign, cs6) :=
        match cs5 with
        | '+' :: r => (false, r)
        | '-' :: r => (true, r)
        | _ => (false, cs5)
      match takeDigits cs6 with
      | (_, 0, _) => none
      | (ev, _, cs7) =>
        some (Json.num mant ((if esign then -(ev : Int) else (ev : Int)) - (fn : Int)), cs7)
    else some (Json.num mant (-(fn : Int)), c :: cs5)
  | [] => some (Json.num mant (-(fn : Int)), [])

/-- Numeric literal per the JSON grammar: optional minus, integer part with
no leading zeros, optional fraction, optional exponent. -/
def parseNum (cs : List Char) : Option (Json × List Char) :=
  let (neg, cs1) :=
    match cs with
    | '-' :: rest => (true, rest)
    | _ => (false, cs)
  match cs1 with
  | c :: _ =>
    if c.isDigit then
      let (ip, n, cs2) := takeDigits cs1
      if c = '0' ∧ n > 1 then none
      else
        match cs2 with
        | '.' :: cs3 =>
          (match takeDigits cs3 with
           | (_, 0, _) => none
           | (fv, fn, cs4) => parseExp neg ip fv fn cs4)
        | _ => parseExp neg ip 0 0 cs2
    else none
  | [] => none

mutual

/-- Parse one JSON value; fuel bounds nesting depth. -/
def parseVal : Nat → List Char → Option (Json × List Char)
  | 0, _ => none
  | fuel + 1, cs =>
    match skipWs cs with
    | '\x7b' :: rest => parseMembers fuel (skipWs rest)
    | '[' :: rest => parseItems fuel (skipWs rest)
    | 'n' :: 'u' :: 'l' :: 'l' :: rest => some (Json.null, rest)
    | 't' :: 'r' :: 'u' :: 'e' :: rest => some (Json.bool true, rest)
    | 'f' :: 'a' :: 'l' :: 's' :: 'e' :: rest => some (Json.bool false, rest)
    | '"' :: rest => (parseStringBody [] rest).map (fun p => (Json.str p.1, p.2))
    | rest => parseNum rest

/-- Array items after the opening bracket (whitespace already skipped). -/
def parseItems : Nat → List Char → Option (Json × List Char)
  | 0, _ => none
  | fuel + 1, cs =>
    match cs with
    | ']' :: rest => some (Json.arr [], rest)
    | _ => parseItemsRest fuel cs []

/-- Non-empty tail of an array: one value, then comma or close. -/
def parseItemsRest : Nat → List Char → List Json → Option (Json × List Char)
  | 0, _, _ => none
  | fuel + 1, cs, acc =>
    match parseVal fuel cs with
    | none => none
    | some (v, r) =>
      match skipWs r with
      | ',' :: r2 => parseItemsRest fuel (skipWs r2) (v :: acc)
      | ']' :: r2 => some (Json.arr (v :: acc).reverse, r2)
      | _ => none

/-- Object members after the opening brace (whitespace already skipped). -/
def parseMembers : Nat → List Char → Option (Json × List Char)
  | 0, _ => none
  | fuel + 1, cs =>
    match cs with
    | '\x7d' :: rest => some (Json.obj [], rest)
    | _ => parseMembersRest fuel cs []

/-- Non-empty tail of an object: a quoted key, colon, value, then comma or
close.  Duplicate keys are all kept in order; lookup takes the last. -/
def parseMembersRest : Nat → List Char → List (String × Json) → Option (Json × List Char)
  | 0, _, _ => none
  | fuel + 1, cs, acc =>
    match cs with
    | '"' :: rest =>
      (match parseStringBody [] rest with
       | none => none
       | some (k, r) =>
         match skipWs r with
         | ':' :: r2 =>
           (match parseVal fuel (skipWs r2) with
            | none => none
            | some (v, r3) =>
              match skipWs r3 with
              | ',' :: r4 => parseMembersRest fuel (skipWs r4) ((k, v) :: acc)
              | '\x7d' :: r4 => some (Json.obj ((k, v) :: acc).reverse, r4)
              | _ => none)
         | _ => none)
    | _ => none

end

/-- Model of Python `json.loads`: parse one value and require only
whitespace after it.  Fuel is generous enough for any input that is not
pathologically deep relative to its length (Python likewise bounds nesting
by its recursion limit).  Nonfinite literals (`NaN`, `Infinity`) are not
modelled. -/
def json_loads (s : String) : Option Json :=
  let cs := s.data
  match parseVal (4 * cs.length + 4) cs with
  | some (v, rest) => if (skipWs rest).isEmpty then some v else none
  | none => none

/-- Python `dict.get` on the member list of a parsed object: with duplicate
keys the later binding wins, as in `json.loads`. -/
def objGet : List (String × Json) → String → Option Json
  | [], _ => none
  | (k1, v) :: rest, k =>
    match objGet rest k with
    | some v2 => some v2
    | none => if k1 = k then some v else none

/-- `dict.get` lifted to a `Json` value known to be an object. -/
def Json.getKey : Json → String → Option Json
  | .obj kvs, k => objGet kvs k
  | _, _ => none

/-- Decimal rendering of a parsed number.  Exact for integer literals
(exponent 0), which is the only case the pipeline ever renders; other
exponents use an abbreviated scientific form standing in for Python float
formatting. -/
def numStr (m e : Int) : String :=
  if e = 0 then toString m else toString m ++ "e" ++ toString e

mutual

/-- Python `repr` of a JSON-decoded value (containers render their elements
with `repr`, strings with single quotes). -/
def pyRepr : Json → String
  | .null => "None"
  | .bool true => "True"
  | .bool false => "False"
  | .num m e => numStr m e
  | .str s => "\x27" ++ s ++ "\x27"
  | .arr xs => "[" ++ pyReprList xs ++ "]"
  | .obj kvs => "\x7b" ++ pyReprMembers kvs ++ "\x7d"

/-- Comma-separated `repr` of list elements. -/
def pyReprList : List Json → String
  | [] => ""
  | [x] => pyRepr x
  | x :: y :: xs => pyRepr x ++ ", " ++ pyReprList (y :: xs)

/-- Comma-separated `repr` of object members. -/
def pyReprMembers : List (String × Json) → String
  | [] => ""
  | [(k, v)] => "\x27" ++ k ++ "\x27: " ++ pyRepr v
  | (k, v) :: m :: kvs => "\x27" ++ k ++ "\x27: " ++ pyRepr v ++ ", " ++ pyReprMembers (m :: kvs)

end

/-- Python `str` of a JSON-decoded value: a string is itself, anything else
renders as its `repr`. -/
def pyStr : Json → String
  | .str s => s
  | v => pyRepr v

/-- Integer division truncated toward zero (Python `int(float)`). -/
def truncDiv (m : Int) (d : Nat) : Int :=
  if 0 ≤ m then ((m.toNat / d : Nat) : Int) else -(((-m).toNat / d : Nat) : Int)

/-- Leading and trailing whitespace removed, over characters (model of
Python `str.strip`). -/
def trimChars (cs : List Char) : List Char :=
  ((cs.dropWhile isJsonWs).reverse.dropWhile isJsonWs).reverse

/-- Python `int(str)`: strip, optional sign, decimal digits. -/
def strToInt (s : String) : Option Int :=
  let cs := trimChars s.data
  let (neg, cs1) :=
    match cs with
    | '-' :: r => (true, r)
    | '+' :: r => (false, r)
    | _ => (false, cs)
  match takeDigits cs1 with
  | (v, n, rest) =>
    if n > 0 ∧ rest = [] then some (if neg then -(v : Int) else (v : Int)) else none

/-- Python `int(x)` on a JSON-decoded value: ints and floats truncate toward
zero, booleans coerce to 0/1, numeric strings parse; everything else raises
(`none`). -/
def pyInt : Json → Option Int
  | .bool b => some (if b then 1 else 0)
  | .num m e => some (if 0 ≤ e then m * ((10 ^ e.toNat : Nat) : Int) else truncDiv m (10 ^ (-e).toNat))
  | .str s => strToInt s
  | _ => none

/-- Exceptions the pipeline can observe around one model call:
`valueError` is the explicit raise in `_safe_json_loads`, `jsonDecodeError`
the error `json.loads` raises on a malformed extracted region (its message
text abstracted), and `chatError` any exception out of `ollama.chat`.
`pyErrStr` is Python `str(e)`. -/
inductive PyErr where
  | valueError : String → PyErr
  | jsonDecodeError : String → PyErr
  | chatError : String → PyErr
deriving Repr, DecidableEq

/-- Python `str(e)` on an exception: its message. -/
def pyErrStr : PyErr → String
  | .valueError m => m
  | .jsonDecodeError m => m
  | .chatError m => m

/-- The region matched by `re.search(r"\x7b.*\x7d", text, flags=re.DOTALL)`:
from the first opening brace to the last closing brace, spanning newlines,
provided a closing brace occurs after the first opening brace. -/
def braceRegion (cs : List Char) : Option (List Char) :=
  match cs.dropWhile (fun c => c ≠ '\x7b') with
  | [] => none
  | _ :: tail =>
    match tail.reverse.dropWhile (fun c => c ≠ '\x7d') with
    | [] => none
    | revKeep => some ('\x7b' :: revKeep.reverse)

/-- `_safe_json_loads` from `agent_graph.py`: strict parse of the stripped
text first; on failure extract the first-brace-to-last-brace region and
strictly parse that; no region raises `ValueError("No JSON object found in
model output.")`, and a malformed region lets the `json.loads` error
propagate. -/
def safe_json_loads (text : String) : Except PyErr Json :=
  match json_loads (String.mk (trimChars text.data)) with
  | some v => .ok v
  | none =>
    match braceRegion (trimChars text.data) with
    | none => .error (.valueError ("No JSON object found in model output."))
    | some region =>
      match json_loads (String.mk region) with
      | some v => .ok v
      | none => .error (.jsonDecodeError ("Malformed JSON object in model output."))

/-- Characters matched by the regex class `\s` (ASCII range). -/
def isPySpace (c : Char) : Bool :=
  c = ' ' || c = '\t' || c = '\n' || c = '\r' || c = Char.ofNat 11 || c = Char.ofNat 12

/-- Does `needle` start the list `hay`? -/
def listStartsWith : List Char → List Char → Bool
  | [], _ => true
  | _ :: _, [] => false
  | n :: ns, h :: hs => n = h && listStartsWith ns hs

/-- Python substring membership `needle in hay`. -/
def containsSub (hay needle : List Char) : Bool :=
  match hay with
  | [] => needle.isEmpty
  | _ :: t => listStartsWith needle hay || containsSub t needle

/-- Anchored match of `(\d+)\s*\+\s*years`, returning the captured number. -/
def matchYearsPlus (cs : List Char) : Option Nat :=
  match takeDigits cs with
  | (_, 0, _) => none
  | (v, _, r1) =>
    match r1.dropWhile isPySpace with
    | '+' :: r2 =>
      if listStartsWith ("years").data (r2.dropWhile isPySpace) then some v else none
    | _ => none

/-- Anchored match of `(\d+)\s*years\s+of\s+experience`. -/
def matchYearsOfExp (cs : List Char) : Option Nat :=
  match takeDigits cs with
  | (_, 0, _) => none
  | (v, _, r1) =>
    let r2 := r1.dropWhile isPySpace
    if listStartsWith ("years").data r2 then
      match r2.drop 5 with
      | c :: r3 =>
        if isPySpace c then
          let r4 := (c :: r3).dropWhile isPySpace
          if listStartsWith ("of").data r4 then
            match r4.drop 2 with
            | c2 :: r5 =>
              if isPySpace c2 then
                if listStartsWith ("experience").data ((c2 :: r5).dropWhile isPySpace) then
                  some v
                else none
              else none
            | [] => none
          else none
        else none
      | [] => none
    else none

/-- Anchored match of `minimum\s+(\d+)\s*years`. -/
def matchMinYears (cs : List Char) : Option Nat :=
  if listStartsWith ("minimum").data cs then
    match cs.drop 7 with
    | c :: r1 =>
      if isPySpace c then
        match takeDigits ((c :: r1).dropWhile isPySpace) with
        | (_, 0, _) => none
        | (v, _, r2) =>
          if listStartsWith ("years").data (r2.dropWhile isPySpace) then some v else none
      else none
    | [] => none
  else none

/-- `re.search` over the text: try the anchored matcher at each position,
leftmost first. -/
def searchPat (m : List Char → Option Nat) : List Char → Option Nat
  | [] => none
  | c :: cs =>
    match m (c :: cs) with
    | some n => some n
    | none => searchPat m cs

/-- `_estimate_required_years` from `agent_graph.py`: lower-case the text,
then try the three patterns in their fixed order; the first pattern that
matches anywhere wins.  `int` on the captured digit run always succeeds, so
the guarded conversion in the source never yields its `None` branch for a
matched pattern. -/
def estimate_required_years (jobText : String) : Option Nat :=
  let cs := jobText.data.map Char.toLower
  match searchPat matchYearsPlus cs with
  | some n => some n
  | none =>
    match searchPat matchYearsOfExp cs with
    | some n => some n
    | none => searchPat matchMinYears cs

/-- `llm_match_job_ollama` with the model runtime abstracted: `chat` is the
outcome of `ollama.chat` (either an exception or the response text); the
prompt assembly does not alter the returned value, which is exactly
`_safe_json_loads` of the content.  A parse failure propagates to the
caller. -/
def llm_match_job_ollama (chat : Except String String) : Except PyErr Json :=
  match chat with
  | .error m => .error (.chatError m)
  | .ok content => safe_json_loads content

/-- A job record: the fields `agent_graph.py` reads, each `none` when the
key is missing.  Further keys of the raw dictionary are not read by the
pipeline and are omitted from the model. -/
structure Job where
  id : Option String := none
  title : Option String := none
  company : Option String := none
  location : Option String := none
  url : Option String := none
  description : Option String := none
deriving Repr, DecidableEq

/-- A decided posting, `\x7b**job, "decision": decision\x7d`. -/
structure Record where
  job : Job
  decision : Json

/-- Python `x or default` on an optional string (`None` and `""` are falsy). -/
def pyOr (o : Option String) (d : String) : String :=
  match o with
  | some s => if s = "" then d else s
  | none => d

/-- JSON integer. -/
def jnum (n : Int) : Json := Json.num n 0

/-- Decision built in the `except` branch of the per-posting model call. -/
def fallbackDecision (e : PyErr) : Json :=
  Json.obj [("match", Json.str ("no")), ("score", jnum 0),
    ("reasons", Json.arr [Json.str ("LLM evaluation failed.")]),
    ("red_flags", Json.arr [Json.str (pyErrStr e)])]

/-- Decision attached when a senior keyword is found in the title. -/
def seniorRejectDecision : Json :=
  Json.obj [("match", Json.str ("no")), ("score", jnum 0),
    ("reasons", Json.arr [Json.str ("Role appears senior-level based on title.")]),
    ("red_flags", Json.arr [Json.str ("Senior/Lead title")])]

/-- Decision attached when the extracted years exceed the threshold. -/
def expRejectDecision (years : Nat) (thr : Int) : Json :=
  Json.obj [("match", Json.str ("no")), ("score", jnum 0),
    ("reasons", Json.arr [Json.str ("Role appears to require " ++ toString years ++
      "+ years of experience (threshold " ++ toString thr ++ ").")]),
    ("red_flags", Json.arr [Json.str ("Experience requirement: " ++ toString years ++ "+ years")])]

/-- The fixed keyword set of the senior-title rule. -/
def senior_keywords : List String := ["senior", "lead", "principal", "staff", "head of"]

/-- `any(k in title for k in senior_keywords)` on the lower-cased title. -/
def titleHasSeniorKeyword (title : List Char) : Bool :=
  senior_keywords.any (fun k => containsSub title k.data)

/-- An uncaught exception aborting `match_jobs_node`: `.get` called on a
decision that is not a dictionary. -/
inductive Crash where
  | attributeError : Crash
deriving Repr, DecidableEq

/-- The decision in scope after the per-posting `try/except`: the parsed
model output, or the failure-closed fallback if the call or parse raised. -/
def modelDecision (chat : Except String String) : Json :=
  match llm_match_job_ollama chat with
  | .ok d => d
  | .error e => fallbackDecision e

/-- `str(decision.get("match", "")).lower() == "yes"` for an object
decision. -/
def matchIsYes (kvs : List (String × Json)) : Bool :=
  String.mk ((pyStr ((objGet kvs ("match")).getD (Json.str ("")))).data.map Char.toLower) = "yes"

/-- Steps 3 of the loop body: take the (fallback-protected) decision,
classify by the `"match"` field; a non-dictionary decision raises
`AttributeError` out of the node. -/
def llmDecide (chat : Except String String) (job : Job) : Except Crash (Bool × Record) :=
  match modelDecision chat with
  | Json.obj kvs => .ok (matchIsYes kvs, ⟨job, Json.obj kvs⟩)
  | _ => .error .attributeError

/-- `title = (job.get("title") or "").lower()` as a character list. -/
def lowerTitle (job : Job) : List Char :=
  (pyOr job.title ("")).data.map Char.toLower

/-- `combined_text = f"..."`: the title (empty when the key is missing)
then a newline then the null-guarded description. -/
def combinedText (job : Job) : String :=
  (job.title.getD ("")) ++ "\n" ++ pyOr job.description ("")

/-- One iteration of the `match_jobs_node` loop: senior-keyword rule, then
years rule, then model judgment.  The Bool is `true` when the record goes
to `matches`. -/
def step (thr : Int) (chat : Except String String) (job : Job) : Except Crash (Bool × Record) :=
  if titleHasSeniorKeyword (lowerTitle job) then
    .ok (false, ⟨job, seniorRejectDecision⟩)
  else
    match estimate_required_years (combinedText job) with
    | some years =>
      if (years : Int) > thr then .ok (false, ⟨job, expRejectDecision years thr⟩)
      else llmDecide chat job
    | none => llmDecide chat job

/-- The whole loop of `match_jobs_node` over the batch: `i` is the
1-based position used to index the per-call model outcome; output lists
collect matches and rejections in input order. -/
def runJobs (thr : Int) (chat : Nat → Except String String) :
    List Job → Nat → Except Crash (List Record × List Record)
  | [], _ => .ok ([], [])
  | job :: rest, i =>
    match step thr (chat i) job with
    | .error c => .error c
    | .ok (isMatch, r) =>
      match runJobs thr chat rest (i + 1) with
      | .error c => .error c
      | .ok (ms, rs) => .ok (if isMatch then (r :: ms, rs) else (ms, r :: rs))

/-- The run statistics dictionary; `none` models an absent key. -/
structure Stats where
  profile_loaded : Option Bool := none
  jobs_source : Option String := none
  jobs_loaded : Option Nat := none
  matching_ran : Option Bool := none
  matches_count : Option Nat := none
  rejected_count : Option Nat := none
  exp_threshold : Option Int := none
deriving Repr, DecidableEq

/-- The shared `AgentState`; defaults model the `state.get(key, default)`
fallbacks used by the nodes. -/
structure AgentState where
  run_date : Option String := none
  profile : Option Json := none
  jobs : List Job := []
  matchesList : List Record := []
  rejected : List Record := []
  stats : Stats := {}

/-- Threshold resolution in `match_jobs_node`:
`int(profile["targeting"]["seniority_preferences"]
["exclude_if_min_years_experience_greater_than"])` with any lookup or
conversion failure giving the hard-coded default 2. -/
def resolveThreshold (profile : Json) : Int :=
  match ((Json.getKey profile ("targeting")).bind
      (fun t => Json.getKey t ("seniority_preferences"))).bind
      (fun t => Json.getKey t ("exclude_if_min_years_experience_greater_than")) with
  | none => 2
  | some v => (pyInt v).getD 2

/-- `match_jobs_node`: resolve the threshold, run the loop, and merge the
outcome into the state and its statistics. -/
def match_jobs_node (chat : Nat → Except String String) (s : AgentState) :
    Except Crash AgentState :=
  let thr := resolveThreshold (s.profile.getD (Json.obj []))
  match runJobs thr chat s.jobs 1 with
  | .error c => .error c
  | .ok (ms, rs) =>
    .ok { s with
      matchesList := ms
      rejected := rs
      stats := { s.stats with
        matching_ran := some true
        matches_count := some ms.length
        rejected_count := some rs.length
        exp_threshold := some thr } }

/-- `load_profile_node` with the profile file content supplied (a missing
profile file aborts the run before this model applies). -/
def load_profile_node (today : String) (profileJson : Json) (s : AgentState) : AgentState :=
  { s with
    run_date := some (pyOr s.run_date today)
    profile := some profileJson
    stats := { s.stats with profile_loaded := some true } }

/-- The dated snapshot store as seen by one run: content of the
`new_jobs_<run_date>.json` and `jobs_<run_date>.json` files, `none` when
the file does not exist. -/
structure JobStore where
  new_jobs : Option (List Job) := none
  jobs : Option (List Job) := none

/-- The batch `load_jobs_node` resolves: the new-jobs file if it exists,
else the jobs file, else an empty list. -/
def loadedJobs (store : JobStore) : List Job :=
  match store.new_jobs with
  | some js => js
  | none =>
    match store.jobs with
    | some js => js
    | none => []

/-- The source label `load_jobs_node` records (file path, or "NONE"). -/
def loadedSource (store : JobStore) (run_date : String) : String :=
  match store.new_jobs with
  | some _ => "data/new_jobs_" ++ run_date ++ ".json"
  | none =>
    match store.jobs with
    | some _ => "data/jobs_" ++ run_date ++ ".json"
    | none => "NONE"

/-- `load_jobs_node`: prefer the new-jobs file, fall back to the jobs file,
default to an empty batch; record the source and the count. -/
def load_jobs_node (today : String) (store : JobStore) (s : AgentState) : AgentState :=
  { s with
    jobs := loadedJobs store
    stats := { s.stats with
      jobs_source := some (loadedSource store (pyOr s.run_date today))
      jobs_loaded := some (loadedJobs store).length } }

/-- Targets of the conditional edge after `load_jobs_node`. -/
inductive Route where
  | match_jobs : Route
  | save_results : Route
deriving Repr, DecidableEq

/-- `route_if_no_jobs`: skip matching when the batch is empty. -/
def route_if_no_jobs (s : AgentState) : Route :=
  if s.jobs.length = 0 then .save_results else .match_jobs

/-- The JSON artifact `save_results_node` writes to `matches_<run_date>.json`. -/
structure RunResult where
  run_date : String
  stats : Stats
  matchesList : List Record
  rejected : List Record

/-- The payload assembled and persisted by `save_results_node`. -/
def save_results_payload (today : String) (s : AgentState) : RunResult :=
  { run_date := pyOr s.run_date today
    stats := s.stats
    matchesList := s.matchesList
    rejected := s.rejected }

/-- The state `app.invoke(\x7b"run_date": d\x7d)` starts from. -/
def initState (rd : Option String) : AgentState := { run_date := rd }

/-- One full run of the compiled graph: LoadProfile, LoadJobs, the
conditional edge, optionally MatchJobs, then SaveResults; the value is the
persisted artifact, or the uncaught exception that aborted the run before
anything was written. -/
def invoke (today : String) (profileJson : Json) (store : JobStore)
    (chat : Nat → Except String String) (s0 : AgentState) : Except Crash RunResult :=
  let s2 := load_jobs_node today store (load_profile_node today profileJson s0)
  match route_if_no_jobs s2 with
  | .save_results => .ok (save_results_payload today s2)
  | .match_jobs =>
    match match_jobs_node chat s2 with
    | .error c => .error c
    | .ok s3 => .ok (save_results_payload today s3)

/-- A job identifier that is truthy in Python (`if job.get("id")`): present
and non-empty. -/
def truthyId (j : Job) : Option String :=
  match j.id with
  | some s => if s = "" then none else some s
  | none => none

/-- `yesterday_ids` from `deduplicate_jobs.py`: the set of truthy
identifiers of yesterday's postings (modelled as a list; only membership is
ever used). -/
def yesterday_ids (ys : List Job) : List String := ys.filterMap truthyId

/-- The pure core of `deduplicate_jobs` (lines 34-41), with the dated file
reads and writes abstracted to the two lists: keep today's postings whose
`id` is not in yesterday's truthy-id set. -/
def deduplicate_jobs (today_jobs yesterday_jobs : List Job) : List Job :=
  today_jobs.filter (fun j =>
    match j.id with
    | none => true
    | some s => !(decide (s ∈ yesterday_ids yesterday_jobs)))

/-- The keep-condition of §4.1 of the spec, written from its words: a
posting lacking a (truthy) identifier is always new; otherwise it is kept
exactly when its identifier is absent from the set of yesterday's
identifiers. -/
def dedupSpecKeep (yesterdays : List Job) (j : Job) : Bool :=
  match truthyId j with
  | none => true
  | some s => !(decide (s ∈ yesterday_ids yesterdays))

/-- A model response that is a clean match decision (used by witnesses). -/
def wYesText : String :=
  "\x7b\"match\":\"yes\",\"score\":88,\"reasons\":[],\"red_flags\":[]\x7d"

/-- The parsed form of `wYesText`. -/
def wYesDecision : Json :=
  Json.obj [("match", Json.str ("yes")), ("score", jnum 88),
    ("reasons", Json.arr []), ("red_flags", Json.arr [])]

/-- Witness postings: one senior title, one with a years requirement, one
that reaches the model. -/
def wJob1 : Job := { title := some ("Senior ML Engineer") }

/-- Witness posting rejected by the experience rule at threshold 2. -/
def wJob2 : Job := { title := some ("Junior Data Analyst"), description := some ("3+ years required") }

/-- Witness posting that passes both pre-filter rules. -/
def wJob3 : Job := { title := some ("Data Intern"), description := some ("no experience needed") }

/-- Witness batch. -/
def wJobs : List Job := [wJob1, wJob2, wJob3]

/-- Witness model oracle: always answers with the clean match decision. -/
def wChat : Nat → Except String String := fun _ => Except.ok wYesText

/-! ## General lemmas -/

theorem mem_yesterday_ids_ne_empty {B : List Job} {s : String}
    (h : s ∈ yesterday_ids B) : s ≠ "" := by
  rcases List.mem_filterMap.mp h with ⟨j, _, hj⟩
  unfold truthyId at hj
  cases hid : j.id with
  | none => rw [hid] at hj; cases hj
  | some t =>
    rw [hid] at hj
    dsimp only at hj
    by_cases ht : t = ""
    · rw [if_pos ht] at hj; cases hj
    · rw [if_neg ht] at hj
      cases hj
      exact ht

theorem dropWhile_append_all {α : Type} {p : α → Bool} :
    ∀ {l₁ : List α} (l₂ : List α), (∀ x ∈ l₁, p x = true) →
      List.dropWhile p (l₁ ++ l₂) = List.dropWhile p l₂
  | [], _, _ => by simp
  | a :: t, l₂, h => by
    have ha := h a (by simp)
    simp only [List.cons_append, List.dropWhile_cons, ha, if_true]
    exact dropWhile_append_all l₂ (fun x hx => h x (by simp [hx]))

theorem dropWhile_head_false {α : Type} {p : α → Bool} :
    ∀ {cs : List α} {x : α} {t : List α}, List.dropWhile p cs = x :: t → p x = false
  | [], _, _, h => by simp at h
  | c :: cs, x, t, h => by
    rw [List.dropWhile_cons] at h
    cases hpc : p c with
    | true => rw [hpc, if_pos rfl] at h; exact dropWhile_head_false h
    | false =>
      rw [hpc, if_neg (by simp)] at h
      rw [← (List.cons.injEq ..).mp h |>.1]
      exact hpc

/-! ## C6 — deduplication -/

/-- C6: `deduplicate_jobs` is a stable filter of today's batch: it is a
subsequence of today's list in original order; it equals the filter that
keeps exactly the postings whose (truthy) identifier is absent from
yesterday's identifier set, postings lacking an identifier always kept and
never contributing to the seen-set; and an empty yesterday-list returns
today's list unchanged. -/
theorem dedup_stable_filter (A B : List Job) :
    List.Sublist (deduplicate_jobs A B) A ∧
    deduplicate_jobs A B = A.filter (dedupSpecKeep B) ∧
    deduplicate_jobs A [] = A := by
  refine ⟨List.filter_sublist A, ?_, ?_⟩
  · unfold deduplicate_jobs
    apply List.filter_congr
    intro j _
    unfold dedupSpecKeep truthyId
    cases hid : j.id with
    | none => rfl
    | some s =>
      dsimp only
      by_cases hs : s = ""
      · rw [if_pos hs]
        subst hs
        have hmem : ¬ ("" ∈ yesterday_ids B) := fun hm => mem_yesterday_ids_ne_empty hm rfl
        simp [hmem]
      · rw [if_neg hs]
  · unfold deduplicate_jobs
    apply List.filter_eq_self.mpr
    intro j _
    cases j.id <;> simp [yesterday_ids]

/-! ## C2 — where the failure-closed fallback happens -/

/-- C2 counterexample: on a response with no JSON object, the per-posting
judgment function `llm_match_job_ollama` does not return a synthetic
Decision; it propagates the `ValueError` to its caller. -/
theorem adapter_propagates_parse_failure :
    llm_match_job_ollama (Except.ok ("not json at all")) =
      Except.error (PyErr.valueError ("No JSON object found in model output.")) ∧
    (llm_match_job_ollama (Except.ok ("not json at all"))).toOption = none :=
  ⟨rfl, rfl⟩

theorem llmDecide_error {c : Except String String} {e : PyErr} (job : Job)
    (h : llm_match_job_ollama c = Except.error e) :
    llmDecide c job = Except.ok (false, ⟨job, fallbackDecision e⟩) := by
  unfold llmDecide modelDecision
  rw [h]
  rfl

/-- C2 amended: the judgment function propagates model-call and parse
failures as exceptions; it is the per-posting handler inside
`match_jobs_node` that converts the exception into the synthetic Decision
with match "no", score 0, a reason stating evaluation failure, and a red
flag carrying `str(e)`, so the failure never escapes the per-posting
loop. -/
theorem fallback_decision_in_match_jobs (c : Except String String) (job : Job) (e : PyErr)
    (h : llm_match_job_ollama c = Except.error e) :
    llmDecide c job = Except.ok (false, ⟨job, fallbackDecision e⟩) ∧
    fallbackDecision e = Json.obj [("match", Json.str ("no")), ("score", jnum 0),
      ("reasons", Json.arr [Json.str ("LLM evaluation failed.")]),
      ("red_flags", Json.arr [Json.str (pyErrStr e)])] :=
  ⟨llmDecide_error job h, rfl⟩

/-- Witness for C2's amended theorem at a concrete unparseable response. -/
theorem fallback_decision_in_match_jobs_witness :
    llmDecide (Except.ok ("not json at all")) wJob3 =
      Except.ok (false, ⟨wJob3,
        fallbackDecision (PyErr.valueError ("No JSON object found in model output."))⟩) :=
  (fallback_decision_in_match_jobs (Except.ok ("not json at all")) wJob3
    (PyErr.valueError ("No JSON object found in model output.")) rfl).1

/-! ## C3 — the parse-repair protocol -/

theorem braceRegion_of_decomp (pre mid post : List Char)
    (hpre : ∀ c ∈ pre, c ≠ '\x7b') (hpost : ∀ c ∈ post, c ≠ '\x7d') :
    braceRegion (pre ++ ('\x7b' :: (mid ++ ('\x7d' :: post)))) = some ('\x7b' :: (mid ++ ['\x7d'])) := by
  have hallpre : ∀ x ∈ pre, (fun c => decide (c ≠ '\x7b')) x = true :=
    fun x hx => by simpa using hpre x hx
  have hallpost : ∀ x ∈ post.reverse, (fun c => decide (c ≠ '\x7d')) x = true := by
    intro x hx
    simp only [List.mem_reverse] at hx
    simpa using hpost x hx
  have h1 : List.dropWhile (fun c => decide (c ≠ '\x7b')) (pre ++ ('\x7b' :: (mid ++ ('\x7d' :: post))))
      = '\x7b' :: (mid ++ ('\x7d' :: post)) := by
    rw [dropWhile_append_all _ hallpre]
    rw [List.dropWhile_cons, if_neg (by simp)]
  have h2 : List.dropWhile (fun c => decide (c ≠ '\x7d')) ((mid ++ ('\x7d' :: post)).reverse)
      = '\x7d' :: mid.reverse := by
    have hsplit : (mid ++ ('\x7d' :: post)).reverse = post.reverse ++ ('\x7d' :: mid.reverse) := by
      simp
    rw [hsplit, dropWhile_append_all _ hallpost]
    rw [List.dropWhile_cons, if_neg (by simp)]
  unfold braceRegion
  rw [h1]
  dsimp only
  rw [h2]
  simp

theorem braceRegion_some_decomp {cs r : List Char}
    (h : braceRegion cs = some r) :
    ∃ a b c, cs = a ++ ('\x7b' :: (b ++ ('\x7d' :: c))) := by
  unfold braceRegion at h
  cases hd : List.dropWhile (fun c => decide (c ≠ '\x7b')) cs with
  | nil => rw [hd] at h; simp at h
  | cons x tail =>
    rw [hd] at h
    dsimp only at h
    have hx : x = '\x7b' := by simpa using dropWhile_head_false hd
    cases hrev : List.dropWhile (fun c => decide (c ≠ '\x7d')) tail.reverse with
    | nil => rw [hrev] at h; simp at h
    | cons y t2 =>
      have hy : y = '\x7d' := by simpa using dropWhile_head_false hrev
      have hcs : cs = cs.takeWhile (fun c => decide (c ≠ '\x7b')) ++ x :: tail := by
        conv_lhs => rw [← List.takeWhile_append_dropWhile (fun c => decide (c ≠ '\x7b')) cs]
        rw [hd]
      have htail : tail =
          t2.reverse ++ '\x7d' :: (tail.reverse.takeWhile (fun c => decide (c ≠ '\x7d'))).reverse := by
        have hrv : tail.reverse =
            tail.reverse.takeWhile (fun c => decide (c ≠ '\x7d')) ++ y :: t2 := by
          conv_lhs => rw [← List.takeWhile_append_dropWhile (fun c => decide (c ≠ '\x7d')) tail.reverse]
          rw [hrev]
        have hcongr := congrArg List.reverse hrv
        simpa [hy] using hcongr
      refine ⟨cs.takeWhile (fun c => decide (c ≠ '\x7b')), t2.reverse,
        (tail.reverse.takeWhile (fun c => decide (c ≠ '\x7d'))).reverse, ?_⟩
      conv_lhs => rw [hcs]
      rw [hx]
      exact congrArg
        (fun l => List.takeWhile (fun c => decide (c ≠ '\x7b')) cs ++ '\x7b' :: l) htail

/-- C3: the parse-repair protocol first attempts a strict parse of the
whole trimmed text; on failure it extracts the region from the first
opening brace to the last closing brace (greedy, across newlines) and
strictly parses that; with no such region it fails with the
"no JSON object found" error, and with a malformed region it fails with the
malformed-JSON error.  Concretely, a clean decision object parses directly,
one surrounded by commentary is extracted and parsed, and text without
braces fails. -/
theorem parse_repair_protocol :
    (∀ t v, json_loads (String.mk (trimChars t.data)) = some v →
      safe_json_loads t = Except.ok v) ∧
    (∀ t, json_loads (String.mk (trimChars t.data)) = none →
      (∀ a b c, trimChars t.data ≠ a ++ ('\x7b' :: (b ++ ('\x7d' :: c)))) →
      safe_json_loads t = Except.error (PyErr.valueError ("No JSON object found in model output."))) ∧
    (∀ t pre mid post, json_loads (String.mk (trimChars t.data)) = none →
      trimChars t.data = pre ++ ('\x7b' :: (mid ++ ('\x7d' :: post))) →
      (∀ c ∈ pre, c ≠ '\x7b') → (∀ c ∈ post, c ≠ '\x7d') →
      safe_json_loads t =
        (match json_loads (String.mk ('\x7b' :: (mid ++ ['\x7d']))) with
         | some v => Except.ok v
         | none => Except.error (PyErr.jsonDecodeError ("Malformed JSON object in model output.")))) ∧
    safe_json_loads ("\x7b\"match\":\"yes\",\"score\":80,\"reasons\":[],\"red_flags\":[]\x7d") =
      Except.ok (Json.obj [("match", Json.str ("yes")), ("score", jnum 80),
        ("reasons", Json.arr []), ("red_flags", Json.arr [])]) ∧
    safe_json_loads ("Sure! Here it is: \x7b\"match\":\"no\",\"score\":10,\"reasons\":[\"x\"],\"red_flags\":[]\x7d Thanks!") =
      Except.ok (Json.obj [("match", Json.str ("no")), ("score", jnum 10),
        ("reasons", Json.arr [Json.str ("x")]), ("red_flags", Json.arr [])]) ∧
    safe_json_loads ("not json at all") =
      Except.error (PyErr.valueError ("No JSON object found in model output.")) := by
  refine ⟨?_, ?_, ?_, rfl, rfl, rfl⟩
  · intro t v h
    unfold safe_json_loads
    rw [h]
  · intro t hnone hno
    unfold safe_json_loads
    rw [hnone]
    dsimp only
    cases hbr : braceRegion (trimChars t.data) with
    | none => rfl
    | some r =>
      exfalso
      rcases braceRegion_some_decomp hbr with ⟨a, b, c, habc⟩
      exact hno a b c habc
  · intro t pre mid post hnone hdec hpre hpost
    unfold safe_json_loads
    rw [hnone]
    dsimp only
    rw [hdec, braceRegion_of_decomp pre mid post hpre hpost]

/-- Witness for C3 at concrete inputs for the strict and no-region paths. -/
theorem parse_repair_protocol_witness :
    safe_json_loads ("  \x7b\"score\": 1\x7d  ") = Except.ok (Json.obj [("score", jnum 1)]) ∧
    safe_json_loads ("plain text") = Except.error (PyErr.valueError ("No JSON object found in model output.")) :=
  ⟨parse_repair_protocol.1 ("  \x7b\"score\": 1\x7d  ") (Json.obj [("score", jnum 1)]) rfl,
   parse_repair_protocol.2.1 ("plain text") rfl (by
     intro a b c habc
     have hmem : '\x7b' ∈ trimChars ("plain text").data := by
       rw [habc]
       simp
     exact absurd hmem (by decide))⟩

/-! ## C8 — the senior-keyword rule -/

theorem listStartsWith_iff {needle hay : List Char} :
    listStartsWith needle hay = true ↔ ∃ rest, hay = needle ++ rest := by
  induction needle generalizing hay with
  | nil => simp [listStartsWith]
  | cons n ns ih =>
    cases hay with
    | nil => simp [listStartsWith]
    | cons h hs =>
      simp only [listStartsWith, Bool.and_eq_true, decide_eq_true_eq, ih,
        List.cons_append, List.cons.injEq]
      constructor
      · rintro ⟨hn, rest, hrest⟩
        exact ⟨rest, hn.symm, hrest⟩
      · rintro ⟨rest, hn, hrest⟩
        exact ⟨hn.symm, rest, hrest⟩

theorem containsSub_iff {hay needle : List Char} :
    containsSub hay needle = true ↔ ∃ pre post, hay = pre ++ needle ++ post := by
  induction hay with
  | nil =>
    simp only [containsSub, List.isEmpty_iff]
    constructor
    · intro h
      exact ⟨[], [], by simp [h]⟩
    · rintro ⟨pre, post, h⟩
      rcases List.append_eq_nil.mp (List.append_eq_nil.mp h.symm).1 with ⟨-, h2⟩
      exact h2
  | cons c t ih =>
    simp only [containsSub, Bool.or_eq_true, listStartsWith_iff, ih]
    constructor
    · rintro (⟨rest, hr⟩ | ⟨pre, post, hp⟩)
      · exact ⟨[], rest, by simp [hr]⟩
      · exact ⟨c :: pre, post, by simp [hp]⟩
    · rintro ⟨pre, post, hp⟩
      cases pre with
      | nil => exact Or.inl ⟨post, by simpa using hp⟩
      | cons p ps =>
        rcases (List.cons.injEq ..).mp (by simpa using hp) with ⟨-, hrest⟩
        exact Or.inr ⟨ps, post, by simp [hrest]⟩

/-- C8: a posting whose lower-cased title contains one of the substrings
"senior", "lead", "principal", "staff", "head of" is rejected without any
model invocation, with the fixed decision carrying match "no", score 0, the
senior-level reason and the "Senior/Lead title" red flag; the containment
test is genuine substring membership. -/
theorem senior_title_rule (thr : Int) (chat chat2 : Except String String) (job : Job)
    (h : titleHasSeniorKeyword (lowerTitle job) = true) :
    step thr chat job = Except.ok (false, ⟨job, seniorRejectDecision⟩) ∧
    step thr chat job = step thr chat2 job ∧
    (∀ t : List Char, titleHasSeniorKeyword t = true ↔
      ∃ k, k ∈ senior_keywords ∧ ∃ pre post, t = pre ++ k.data ++ post) ∧
    Json.getKey seniorRejectDecision ("match") = some (Json.str ("no")) ∧
    Json.getKey seniorRejectDecision ("score") = some (jnum 0) ∧
    Json.getKey seniorRejectDecision ("reasons") =
      some (Json.arr [Json.str ("Role appears senior-level based on title.")]) ∧
    Json.getKey seniorRejectDecision ("red_flags") =
      some (Json.arr [Json.str ("Senior/Lead title")]) := by
  refine ⟨by simp [step, h], by simp [step, h], ?_, rfl, rfl, rfl, rfl⟩
  intro t
  simp only [titleHasSeniorKeyword, List.any_eq_true, containsSub_iff]

/-- Witness for C8 at the concrete senior-titled posting. -/
theorem senior_title_rule_witness :
    step 2 (Except.ok ("a")) wJob1 = Except.ok (false, ⟨wJob1, seniorRejectDecision⟩) :=
  (senior_title_rule 2 (Except.ok ("a")) (Except.ok ("b")) wJob1 rfl).1

/-! ## Lemmas on the loop body -/

theorem step_of_prefilter_pass {thr : Int} {chat : Except String String} {job : Job}
    (hsen : titleHasSeniorKeyword (lowerTitle job) = false)
    (hyears : ∀ n, estimate_required_years (combinedText job) = some n → (n : Int) ≤ thr) :
    step thr chat job = llmDecide chat job := by
  unfold step
  rw [hsen, if_neg (by simp)]
  cases hy : estimate_required_years (combinedText job) with
  | none => rfl
  | some n =>
    dsimp only
    rw [if_neg (not_lt.mpr (hyears n hy))]

theorem step_job_eq {thr : Int} {c : Except String String} {job : Job} {b : Bool} {r : Record}
    (h : step thr c job = Except.ok (b, r)) : r.job = job := by
  unfold step llmDecide at h
  repeat' split at h
  all_goals
    first
    | exact Except.noConfusion h
    | (simp only [Except.ok.injEq, Prod.mk.injEq] at h
       rw [← h.2])

theorem runJobs_partition (thr : Int) (chat : Nat → Except String String) :
    ∀ (jobs : List Job) (i : Nat) (ms rs : List Record),
      runJobs thr chat jobs i = Except.ok (ms, rs) →
      ms.length + rs.length = jobs.length ∧
      List.Sublist (ms.map Record.job) jobs ∧
      List.Sublist (rs.map Record.job) jobs ∧
      ∃ flags : List Bool, flags.length = jobs.length ∧
        ms.map Record.job = (jobs.zip flags).filterMap (fun p => if p.2 then some p.1 else none) ∧
        rs.map Record.job = (jobs.zip flags).filterMap (fun p => if p.2 then none else some p.1)
  | [], i, ms, rs, h => by
    simp only [runJobs, Except.ok.injEq, Prod.mk.injEq] at h
    obtain ⟨hm, hr⟩ := h
    subst hm
    subst hr
    exact ⟨rfl, by simp, by simp, [], rfl, by simp, by simp⟩
  | job :: rest, i, ms, rs, h => by
    simp only [runJobs] at h
    cases hstep : step thr (chat i) job with
    | error c => rw [hstep] at h; exact Except.noConfusion h
    | ok br =>
      obtain ⟨b, r⟩ := br
      rw [hstep] at h
      dsimp only at h
      cases hrest : runJobs thr chat rest (i + 1) with
      | error c => rw [hrest] at h; exact Except.noConfusion h
      | ok p =>
        obtain ⟨ms2, rs2⟩ := p
        rw [hrest] at h
        dsimp only at h
        obtain ⟨hlen, hsub1, hsub2, flags, hflen, hf1, hf2⟩ :=
          runJobs_partition thr chat rest (i + 1) ms2 rs2 hrest
        have hjob : r.job = job := step_job_eq hstep
        cases b with
        | true =>
          simp only [if_pos, Except.ok.injEq, Prod.mk.injEq, if_true] at h
          obtain ⟨hm, hr2⟩ := h
          subst hm
          subst hr2
          refine ⟨by simp [hlen]; omega, ?_, List.Sublist.cons job hsub2,
            true :: flags, by simp [hflen], ?_, ?_⟩
          · rw [List.map_cons, hjob]
            exact List.Sublist.cons₂ job hsub1
          · simp only [List.zip_cons_cons, List.filterMap_cons, if_true, List.map_cons, hjob]
            rw [hf1]
          · simp only [List.zip_cons_cons, List.filterMap_cons, if_true]
            exact hf2
        | false =>
          simp only [Bool.false_eq_true, if_false, Except.ok.injEq, Prod.mk.injEq] at h
          obtain ⟨hm, hr2⟩ := h
          subst hm
          subst hr2
          refine ⟨by simp [hlen]; omega, List.Sublist.cons job hsub1, ?_,
            false :: flags, by simp [hflen], ?_, ?_⟩
          · rw [List.map_cons, hjob]
            exact List.Sublist.cons₂ job hsub2
          · simp only [List.zip_cons_cons, List.filterMap_cons, Bool.false_eq_true, if_false]
            exact hf1
          · simp only [List.zip_cons_cons, List.filterMap_cons, Bool.false_eq_true, if_false,
              List.map_cons, hjob]
            rw [hf2]

/-! ## C7 — the experience-extraction rule -/

/-- C7: the years heuristic scans the lower-cased concatenation of title
and description against the three patterns in their fixed priority order;
the first pattern with a match anywhere determines N even when a later
pattern would extract a different value; with no match the rule passes the
posting through to model judgment; and when N strictly exceeds the
threshold the posting is rejected, before any model call, with score 0, a
reason naming N and the threshold, and a red flag naming the
requirement. -/
theorem experience_rule :
    (∀ txt n, searchPat matchYearsPlus (txt.data.map Char.toLower) = some n →
      estimate_required_years txt = some n) ∧
    (∀ txt n, searchPat matchYearsPlus (txt.data.map Char.toLower) = none →
      searchPat matchYearsOfExp (txt.data.map Char.toLower) = some n →
      estimate_required_years txt = some n) ∧
    (∀ txt n, searchPat matchYearsPlus (txt.data.map Char.toLower) = none →
      searchPat matchYearsOfExp (txt.data.map Char.toLower) = none →
      searchPat matchMinYears (txt.data.map Char.toLower) = some n →
      estimate_required_years txt = some n) ∧
    (∀ txt, searchPat matchYearsPlus (txt.data.map Char.toLower) = none →
      searchPat matchYearsOfExp (txt.data.map Char.toLower) = none →
      searchPat matchMinYears (txt.data.map Char.toLower) = none →
      estimate_required_years txt = none) ∧
    searchPat matchMinYears (("3+ years preferred, minimum 5 years").data.map Char.toLower) = some 5 ∧
    estimate_required_years ("3+ years preferred, minimum 5 years") = some 3 ∧
    estimate_required_years ("Requires Minimum 5 Years") = some 5 ∧
    (∀ (thr : Int) chat job n, titleHasSeniorKeyword (lowerTitle job) = false →
      estimate_required_years (combinedText job) = some n → (n : Int) > thr →
      step thr chat job = Except.ok (false, ⟨job, expRejectDecision n thr⟩)) ∧
    (∀ (thr : Int) chat job, titleHasSeniorKeyword (lowerTitle job) = false →
      estimate_required_years (combinedText job) = none →
      step thr chat job = llmDecide chat job) ∧
    (∀ (n : Nat) (thr : Int),
      Json.getKey (expRejectDecision n thr) ("match") = some (Json.str ("no")) ∧
      Json.getKey (expRejectDecision n thr) ("score") = some (jnum 0) ∧
      Json.getKey (expRejectDecision n thr) ("reasons") = some (Json.arr [Json.str
        ("Role appears to require " ++ toString n ++ "+ years of experience (threshold " ++
          toString thr ++ ").")]) ∧
      Json.getKey (expRejectDecision n thr) ("red_flags") = some (Json.arr [Json.str
        ("Experience requirement: " ++ toString n ++ "+ years")])) := by
  refine ⟨?_, ?_, ?_, ?_, rfl, rfl, rfl, ?_, ?_, fun n thr => ⟨rfl, rfl, rfl, rfl⟩⟩
  · intro txt n h1
    unfold estimate_required_years
    dsimp only
    rw [h1]
  · intro txt n h1 h2
    unfold estimate_required_years
    dsimp only
    rw [h1, h2]
  · intro txt n h1 h2 h3
    unfold estimate_required_years
    dsimp only
    rw [h1, h2, h3]
  · intro txt h1 h2 h3
    unfold estimate_required_years
    dsimp only
    rw [h1, h2, h3]
  · intro thr chat job n hsen hy hgt
    unfold step
    rw [hsen, if_neg (by simp), hy]
    dsimp only
    rw [if_pos hgt]
  · intro thr chat job hsen hy
    refine (step_of_prefilter_pass hsen ?_)
    intro n hn
    rw [hy] at hn
    exact Option.noConfusion hn

/-- Witness for C7 at the concrete years-rule posting and threshold 2. -/
theorem experience_rule_witness :
    step 2 (Except.ok ("a")) wJob2 = Except.ok (false, ⟨wJob2, expRejectDecision 3 2⟩) :=
  experience_rule.2.2.2.2.2.2.2.1 2 (Except.ok ("a")) wJob2 3 rfl rfl (by decide)

/-! ## C1 — per-posting model failures are isolated -/

/-- C1: when the model call or the parsing of its output raises, the
posting still receives the fallback Decision (match "no", score 0), is
placed in the rejected list, and the rest of the batch is evaluated exactly
as it would be on its own — the failure does not abort the batch. -/
theorem posting_failure_isolated (thr : Int) (chat : Nat → Except String String)
    (job : Job) (rest : List Job) (i : Nat) (e : PyErr)
    (hsen : titleHasSeniorKeyword (lowerTitle job) = false)
    (hyears : ∀ n, estimate_required_years (combinedText job) = some n → (n : Int) ≤ thr)
    (hfail : llm_match_job_ollama (chat i) = Except.error e) :
    runJobs thr chat (job :: rest) i =
      (runJobs thr chat rest (i + 1)).map
        (fun p => (p.1, (⟨job, fallbackDecision e⟩ : Record) :: p.2)) ∧
    Json.getKey (fallbackDecision e) ("match") = some (Json.str ("no")) ∧
    Json.getKey (fallbackDecision e) ("score") = some (jnum 0) := by
  refine ⟨?_, rfl, rfl⟩
  have hstep : step thr (chat i) job = Except.ok (false, ⟨job, fallbackDecision e⟩) :=
    (step_of_prefilter_pass hsen hyears).trans (llmDecide_error job hfail)
  simp only [runJobs]
  rw [hstep]
  dsimp only
  cases hr : runJobs thr chat rest (i + 1) with
  | error c => rfl
  | ok p =>
    obtain ⟨ms, rs⟩ := p
    rfl

/-- Witness for C1: a failing model call on the lead posting, with one more
posting after it. -/
theorem posting_failure_isolated_witness :
    runJobs 2 (fun _ => Except.error ("connection refused")) (wJob3 :: [wJob1]) 1 =
      (runJobs 2 (fun _ => Except.error ("connection refused")) [wJob1] 2).map
        (fun p => (p.1, (⟨wJob3, fallbackDecision (PyErr.chatError ("connection refused"))⟩ : Record) :: p.2)) :=
  (posting_failure_isolated 2 (fun _ => Except.error ("connection refused")) wJob3 [wJob1] 1
    (PyErr.chatError ("connection refused")) rfl
    (fun n hn => by
      rw [show estimate_required_years (combinedText wJob3) = none from rfl] at hn
      exact Option.noConfusion hn)
    rfl).1

/-! ## C10 — classification by the lower-cased match field -/

/-- C10: a posting that reaches model judgment and obtains an object
decision is placed in the matches list exactly when the decision's "match"
value, converted to a string and lower-cased, equals "yes"; any other
value, or a missing key (defaulting to ""), places it in the rejected
list.  The rest of the batch is processed unchanged. -/
theorem model_match_classification (thr : Int) (chat : Nat → Except String String)
    (job : Job) (rest : List Job) (i : Nat) (kvs : List (String × Json))
    (hsen : titleHasSeniorKeyword (lowerTitle job) = false)
    (hyears : ∀ n, estimate_required_years (combinedText job) = some n → (n : Int) ≤ thr)
    (hdec : modelDecision (chat i) = Json.obj kvs) :
    runJobs thr chat (job :: rest) i =
      (runJobs thr chat rest (i + 1)).map (fun p =>
        if String.mk ((pyStr ((objGet kvs ("match")).getD (Json.str ("")))).data.map Char.toLower) = "yes"
        then ((⟨job, Json.obj kvs⟩ : Record) :: p.1, p.2)
        else (p.1, (⟨job, Json.obj kvs⟩ : Record) :: p.2)) := by
  have hstep : step thr (chat i) job = Except.ok (matchIsYes kvs, ⟨job, Json.obj kvs⟩) := by
    rw [step_of_prefilter_pass hsen hyears]
    unfold llmDecide
    rw [hdec]
  simp only [runJobs]
  rw [hstep]
  dsimp only
  cases hr : runJobs thr chat rest (i + 1) with
  | error c => rfl
  | ok p =>
    obtain ⟨ms, rs⟩ := p
    simp only [Except.map]
    by_cases hc : String.mk ((pyStr ((objGet kvs ("match")).getD (Json.str ("")))).data.map Char.toLower) = "yes"
    · rw [if_pos (by simp [matchIsYes, hc]), if_pos hc]
    · rw [if_neg (by simp [matchIsYes, hc]), if_neg hc]

/-- Witness for C10: a decision whose match field is "yes" goes to the
matches list. -/
theorem model_match_classification_witness :
    runJobs 2 wChat (wJob3 :: []) 1 =
      (runJobs 2 wChat [] 2).map (fun p =>
        if String.mk ((pyStr ((objGet [("match", Json.str ("yes")), ("score", jnum 88),
              ("reasons", Json.arr []), ("red_flags", Json.arr [])] ("match")).getD
              (Json.str ("")))).data.map Char.toLower) = "yes"
        then ((⟨wJob3, wYesDecision⟩ : Record) :: p.1, p.2)
        else (p.1, (⟨wJob3, wYesDecision⟩ : Record) :: p.2)) :=
  model_match_classification 2 wChat wJob3 [] 1
    [("match", Json.str ("yes")), ("score", jnum 88), ("reasons", Json.arr []),
      ("red_flags", Json.arr [])]
    rfl
    (fun n hn => by
      rw [show estimate_required_years (combinedText wJob3) = none from rfl] at hn
      exact Option.noConfusion hn)
    rfl

/-! ## C5 — order-preserving partition of the batch -/

/-- C5: when `MatchJobs` completes on a batch, every input posting appears
in exactly one of the matches and rejected lists (the lengths add up and
each projected job list is a subsequence of the input, hence in input
order), and there is a flag per input position whose true/false split
reconstructs both lists from the input batch — merging the two lists by
original input index gives back the batch exactly. -/
theorem match_jobs_order_partition (thr : Int) (chat : Nat → Except String String)
    (jobs : List Job) (i : Nat) (ms rs : List Record)
    (h : runJobs thr chat jobs i = Except.ok (ms, rs)) :
    ms.length + rs.length = jobs.length ∧
    List.Sublist (ms.map Record.job) jobs ∧
    List.Sublist (rs.map Record.job) jobs ∧
    ∃ flags : List Bool, flags.length = jobs.length ∧
      ms.map Record.job = (jobs.zip flags).filterMap (fun p => if p.2 then some p.1 else none) ∧
      rs.map Record.job = (jobs.zip flags).filterMap (fun p => if p.2 then none else some p.1) :=
  runJobs_partition thr chat jobs i ms rs h

/-- Witness for C5 on the three-posting batch: one match, two rejections. -/
theorem match_jobs_order_partition_witness :
    [(⟨wJob3, wYesDecision⟩ : Record)].length +
      [(⟨wJob1, seniorRejectDecision⟩ : Record), ⟨wJob2, expRejectDecision 3 2⟩].length =
      wJobs.length :=
  (match_jobs_order_partition 2 wChat wJobs 1
    [⟨wJob3, wYesDecision⟩]
    [⟨wJob1, seniorRejectDecision⟩, ⟨wJob2, expRejectDecision 3 2⟩] rfl).1

/-! ## C9 — threshold resolution and its reflection in stats -/

/-- C9: the threshold lookup falls back to the hard-coded default 2 when
the nested keys are missing or the found value cannot be converted by
`int`, and whenever `MatchJobs` completes, the recorded
`stats.exp_threshold` is exactly the threshold the loop was run with. -/
theorem threshold_default_and_stats :
    (∀ profile, ((Json.getKey profile ("targeting")).bind
        (fun t => Json.getKey t ("seniority_preferences"))).bind
        (fun t => Json.getKey t ("exclude_if_min_years_experience_greater_than")) = none →
      resolveThreshold profile = 2) ∧
    (∀ profile v, ((Json.getKey profile ("targeting")).bind
        (fun t => Json.getKey t ("seniority_preferences"))).bind
        (fun t => Json.getKey t ("exclude_if_min_years_experience_greater_than")) = some v →
      pyInt v = none → resolveThreshold profile = 2) ∧
    (∀ chat s s2, match_jobs_node chat s = Except.ok s2 →
      s2.stats.exp_threshold = some (resolveThreshold (s.profile.getD (Json.obj []))) ∧
      runJobs (resolveThreshold (s.profile.getD (Json.obj []))) chat s.jobs 1 =
        Except.ok (s2.matchesList, s2.rejected)) := by
  refine ⟨?_, ?_, ?_⟩
  · intro profile h
    unfold resolveThreshold
    rw [h]
  · intro profile v h hv
    unfold resolveThreshold
    rw [h]
    dsimp only
    rw [hv]
    rfl
  · intro chat s s2 h
    unfold match_jobs_node at h
    dsimp only at h
    cases hr : runJobs (resolveThreshold (s.profile.getD (Json.obj []))) chat s.jobs 1 with
    | error c => rw [hr] at h; exact Except.noConfusion h
    | ok p =>
      obtain ⟨ms, rs⟩ := p
      rw [hr] at h
      dsimp only at h
      simp only [Except.ok.injEq] at h
      subst h
      exact ⟨rfl, rfl⟩

/-- Witness for C9: an empty profile object resolves to the default 2. -/
theorem threshold_default_and_stats_witness :
    resolveThreshold (Json.obj []) = 2 :=
  threshold_default_and_stats.1 (Json.obj []) rfl

/-! ## C4 — empty batch skips matching entirely -/

/-- C4: when the resolved batch is empty, the conditional edge routes
`LoadJobs` directly to `SaveResults`; the run's outcome does not depend on
the model oracle at all (no rule evaluation or model call happens), and the
persisted RunResult has `jobs_loaded` 0, no `matching_ran` key, and empty
matches and rejected lists — while the artifact is still written. -/
theorem empty_batch_skips_matching (today : String) (rd : Option String) (profileJson : Json)
    (store : JobStore) (chat chat2 : Nat → Except String String)
    (hempty : loadedJobs store = []) :
    route_if_no_jobs (load_jobs_node today store
      (load_profile_node today profileJson (initState rd))) = Route.save_results ∧
    invoke today profileJson store chat (initState rd) =
      invoke today profileJson store chat2 (initState rd) ∧
    ∃ rr : RunResult, invoke today profileJson store chat (initState rd) = Except.ok rr ∧
      rr.stats.jobs_loaded = some 0 ∧ rr.stats.matching_ran = none ∧
      rr.matchesList = [] ∧ rr.rejected = [] := by
  have hroute : route_if_no_jobs (load_jobs_node today store
      (load_profile_node today profileJson (initState rd))) = Route.save_results := by
    simp [route_if_no_jobs, load_jobs_node, hempty]
  have hinv : ∀ ch : Nat → Except String String,
      invoke today profileJson store ch (initState rd) =
        Except.ok (save_results_payload today (load_jobs_node today store
          (load_profile_node today profileJson (initState rd)))) := by
    intro ch
    unfold invoke
    dsimp only
    rw [hroute]
  refine ⟨hroute, (hinv chat).trans (hinv chat2).symm,
    ⟨save_results_payload today (load_jobs_node today store
      (load_profile_node today profileJson (initState rd))), hinv chat, ?_, rfl, rfl, rfl⟩⟩
  simp [save_results_payload, load_jobs_node, hempty]

/-- Witness for C4 with an entirely missing snapshot store. -/
theorem empty_batch_skips_matching_witness :
    route_if_no_jobs (load_jobs_node ("2024-01-01") { new_jobs := none, jobs := none }
      (load_profile_node ("2024-01-01") (Json.obj []) (initState (some ("2024-01-01"))))) =
      Route.save_results :=
  (empty_batch_skips_matching ("2024-01-01") (some ("2024-01-01")) (Json.obj [])
    { new_jobs := none, jobs := none }
    (fun _ => Except.ok ("a")) (fun _ => Except.error ("b")) rfl).1

end JobAgent
